import Mathlib

/-!
Verification of the job-lifecycle coordinator of the nf-rest-plugin server
(src/nf-server/src/app.py, the v1 service, and src/nf-server/v2/src/gateway/app.py,
the v2 gateway).  The Python sources are shallowly embedded below: pure helpers
become Lean functions, the MySQL `jobs` table becomes a list of rows, and each
SQL statement (executed under autocommit, hence individually atomic) becomes a
pure function from table to table together with its affected-row count.
External subprocesses (the terraform apply/destroy runner) are collaborators:
their observable outcomes are inputs of the model.
-/

set_option maxHeartbeats 1000000
set_option maxRecDepth 100000

namespace NfRest

/-- Loosely-typed scalar value appearing in a JSON-like resource dict. -/
inductive Value where
  | vint (n : Int)
  | vstr (s : String)
deriving DecidableEq, Repr

/-- A Python dict with string keys; a stored `none` models a JSON null value. -/
abbrev Raw := List (String × Option Value)

/-- Python `data.get(key)`, treating a stored null like an absent key (every use
in the source either checks `is not None` or treats `None` the same as a
missing key). -/
def rawGet (data : Raw) (key : String) : Option Value :=
  match data.lookup key with
  | some (some v) => some v
  | _ => none

/-- Decimal digit accumulator for `pyInt`. -/
def parseDigitsAux : List Char → Nat → Option Nat
  | [], acc => some acc
  | c :: cs, acc =>
    if c.isDigit then parseDigitsAux cs (acc * 10 + (c.toNat - 48)) else none

/-- Python `int(s)` on a decimal string: an optional sign followed by at least
one digit; anything else fails. -/
def pyIntStr (s : String) : Option Int :=
  match s.data with
  | [] => none
  | '-' :: rest =>
    if rest = [] then none else (parseDigitsAux rest 0).map (fun n => -(n : Int))
  | '+' :: rest =>
    if rest = [] then none else (parseDigitsAux rest 0).map (fun n => (n : Int))
  | cs => (parseDigitsAux cs 0).map (fun n => (n : Int))

/-- Python `int(v)` on the modeled values: identity on ints, decimal parsing on
strings, failure otherwise. -/
def pyInt : Value → Option Int
  | .vint n => some n
  | .vstr s => pyIntStr s

/-- pydantic coercion of an optional field value into `Optional[int]`: a null
passes through, an int stays, a numeric string parses, anything else is a
validation error. -/
def coerceOptInt : Option Value → Except Unit (Option Int)
  | none => .ok none
  | some v =>
    match pyInt v with
    | some n => .ok (some n)
    | none => .error ()

/-- pydantic coercion into `Optional[str]` (total on the modeled values). -/
def coerceOptStr : Option Value → Option String
  | none => none
  | some (.vstr s) => some s
  | some (.vint n) => some (toString n)

/-- The `get_first` helper defined inside `normalize_resources` (identical in
both variants): first key present in the dict with a non-null value. -/
def get_first (data : Raw) : List String → Option Value
  | [] => none
  | k :: ks =>
    match rawGet data k with
    | some v => some v
    | none => get_first data ks

/-- Disk aliases tried in order by `normalize_resources` (identical in both
variants, lines 572-582 of the v1 service and 401-411 of the v2 gateway). -/
def diskKeys : List String :=
  ["disk", "disk_size", "disk_gb", "image_boot_size", "boot_disk", "bootdisk",
   "bootdisk_size"]

/-- Shape aliases of the v1 `normalize_resources` (line 569). -/
def shapeKeys : List String :=
  ["shape", "gpushape", "acceleratorshape", "accelerator_shape"]

/-- The canonical `ResourceSpec` of the v1 service.  `normalize_resources`
constructs a fresh record carrying exactly these five fields, so any extra
input fields are dropped. -/
structure ResourceSpec where
  cpu : Option Int
  ram : Option Int
  gpu : Option Int
  shape : Option String
  disk : Option Int
deriving DecidableEq, Repr

/-- Python `resources.dict()` on a v1 `ResourceSpec`: the five canonical keys,
null fields stored as null values. -/
def ResourceSpec.toRaw (s : ResourceSpec) : Raw :=
  [("cpu", s.cpu.map .vint), ("ram", s.ram.map .vint), ("gpu", s.gpu.map .vint),
   ("shape", s.shape.map .vstr), ("disk", s.disk.map .vint)]

/-- The v1 `normalize_resources` (src/nf-server/src/app.py lines 553-590) on
the dict form of its argument (`resources.dict()` when called on a
`ResourceSpec`; the `None`-argument short-circuit is handled at the call
sites).  pydantic validation failure of the constructed record is `.error`. -/
def normalize_resources (data : Raw) : Except Unit ResourceSpec :=
  let gpuRaw :=
    match rawGet data "gpu" with
    | some v => some v
    | none => rawGet data "acceleratornum"
  match coerceOptInt (rawGet data "cpu"), coerceOptInt (rawGet data "ram"),
        coerceOptInt gpuRaw, coerceOptInt (get_first data diskKeys) with
  | .ok cpu, .ok ram, .ok gpu, .ok disk =>
      .ok ⟨cpu, ram, gpu, coerceOptStr (get_first data shapeKeys), disk⟩
  | _, _, _, _ => .error ()

namespace V2

/-- The canonical `ResourceSpec` of the v2 gateway (accelerator count instead
of gpu). -/
structure ResourceSpec where
  cpu : Option Int
  ram : Option Int
  accelerator : Option Int
  shape : Option String
  disk : Option Int
deriving DecidableEq, Repr

/-- Python `resources.dict()` on a v2 `ResourceSpec`. -/
def ResourceSpec.toRaw (s : ResourceSpec) : Raw :=
  [("cpu", s.cpu.map .vint), ("ram", s.ram.map .vint),
   ("accelerator", s.accelerator.map .vint),
   ("shape", s.shape.map .vstr), ("disk", s.disk.map .vint)]

/-- Shape aliases of the v2 `normalize_resources` (line 399). -/
def shapeKeys : List String :=
  ["acceleratorShape", "acceleratorshape", "accelerator_shape", "shape",
   "gpushape"]

/-- Accelerator-count resolution of the v2 `normalize_resources` (lines
388-396): first of `accelerator`, `gpu`, `acceleratornum`; `int()` coercion
with the `except` branch mapping failures to 0; 0 when no key is present. -/
def resolveAccelerator (data : Raw) : Int :=
  let raw :=
    match rawGet data "accelerator" with
    | some v => some v
    | none =>
      match rawGet data "gpu" with
      | some v => some v
      | none => rawGet data "acceleratornum"
  match raw with
  | none => 0
  | some v => (pyInt v).getD 0

/-- The v2 `normalize_resources` (src/nf-server/v2/src/gateway/app.py lines
373-419) on the dict form of its argument. -/
def normalize_resources (data : Raw) : Except Unit ResourceSpec :=
  match coerceOptInt (rawGet data "cpu"), coerceOptInt (rawGet data "ram"),
        coerceOptInt (get_first data diskKeys) with
  | .ok cpu, .ok ram, .ok disk =>
      .ok ⟨cpu, ram, some (resolveAccelerator data),
           coerceOptStr (get_first data shapeKeys), disk⟩
  | _, _, _ => .error ()

end V2

/-- Bytes per gigabyte used by `normalize_ram_gb` (`1024 ** 3`). -/
def gbBytes : Nat := 1024 ^ 3

/-- Python `float(v)` restricted to the modeled integer values.  In the ranges
the service handles (below `2^53`) Python's float conversion and its division
by the power of two `1024 ** 3` are exact, so the Int model is faithful. -/
def pyFloat (v : Value) : Option Int := pyInt v

/-- `normalize_ram_gb` (src/nf-server/src/app.py lines 593-607): null or
unparseable gives null, non-positive gives null, values above the 1000000
threshold are taken as bytes and ceiling-divided by `gbBytes`, smaller positive
values are already whole gigabytes. -/
def normalize_ram_gb : Option Value → Option Int
  | none => none
  | some v =>
    match pyFloat v with
    | none => none
    | some ram =>
      if ram ≤ 0 then none
      else if 1000000 < ram then
        some (((ram.toNat + (gbBytes - 1)) / gbBytes : Nat) : Int)
      else some ram

/-! Helper lemmas for the normalization claims. -/

/-- Every well-typed v1 record is a fixed point of `normalize_resources`. -/
theorem normalize_resources_fixed (s : ResourceSpec) :
    normalize_resources s.toRaw = .ok s := by
  rcases s with ⟨cpu, ram, gpu, shape, disk⟩
  cases cpu <;> cases ram <;> cases gpu <;> cases shape <;> cases disk <;> rfl

/-- Every v2 record with a resolved accelerator count is a fixed point of the
v2 `normalize_resources`. -/
theorem v2_normalize_resources_fixed (cpu ram : Option Int) (a : Int)
    (shape : Option String) (disk : Option Int) :
    V2.normalize_resources (V2.ResourceSpec.toRaw ⟨cpu, ram, some a, shape, disk⟩) =
      .ok ⟨cpu, ram, some a, shape, disk⟩ := by
  cases cpu <;> cases ram <;> cases shape <;> cases disk <;> rfl

/-- A successful v2 normalization always resolves the accelerator count. -/
theorem v2_accel_of_ok (data : Raw) (s : V2.ResourceSpec)
    (h : V2.normalize_resources data = .ok s) :
    s.accelerator = some (V2.resolveAccelerator data) := by
  unfold V2.normalize_resources at h
  split at h
  · injection h with h2
    rw [← h2]
  · exact absurd h (by simp)

/-- C7: Resource normalization is idempotent in both variants: a record
produced by `normalize_resources` normalizes to itself again. -/
theorem normalize_resources_idempotent :
    (∀ (data : Raw) (s : ResourceSpec), normalize_resources data = .ok s →
      normalize_resources s.toRaw = .ok s) ∧
    (∀ (data : Raw) (s : V2.ResourceSpec), V2.normalize_resources data = .ok s →
      V2.normalize_resources s.toRaw = .ok s) := by
  constructor
  · intro _ s _
    exact normalize_resources_fixed s
  · intro data s h
    have ha := v2_accel_of_ok data s h
    rcases s with ⟨cpu, ram, accel, shape, disk⟩
    simp only at ha
    rw [ha]
    exact v2_normalize_resources_fixed cpu ram _ shape disk

/-- Witness for C7 at a concrete input carrying an alias field. -/
theorem normalize_resources_idempotent_witness :
    normalize_resources
        (ResourceSpec.toRaw ⟨none, none, some 2, some "A100", none⟩) =
      .ok ⟨none, none, some 2, some "A100", none⟩ :=
  normalize_resources_idempotent.1
    [("acceleratornum", some (.vint 2)), ("gpushape", some (.vstr "A100"))]
    ⟨none, none, some 2, some "A100", none⟩ rfl

/-- C8: the v2 accelerator count resolves first-match-wins over
`accelerator`, then `gpu`, then `acceleratornum`, defaults to 0 when none is
present, and an invalid value yields the default 0 instead of a validation
error. -/
theorem v2_accelerator_resolution :
    (∀ (data : Raw) (s : V2.ResourceSpec) (v : Value) (k : Int),
      rawGet data "accelerator" = some v → pyInt v = some k →
      V2.normalize_resources data = .ok s → s.accelerator = some k) ∧
    (∀ (data : Raw) (s : V2.ResourceSpec) (v : Value) (k : Int),
      rawGet data "accelerator" = none → rawGet data "gpu" = some v →
      pyInt v = some k →
      V2.normalize_resources data = .ok s → s.accelerator = some k) ∧
    (∀ (data : Raw) (s : V2.ResourceSpec) (v : Value) (k : Int),
      rawGet data "accelerator" = none → rawGet data "gpu" = none →
      rawGet data "acceleratornum" = some v → pyInt v = some k →
      V2.normalize_resources data = .ok s → s.accelerator = some k) ∧
    (∀ (data : Raw) (s : V2.ResourceSpec),
      rawGet data "accelerator" = none → rawGet data "gpu" = none →
      rawGet data "acceleratornum" = none →
      V2.normalize_resources data = .ok s → s.accelerator = some 0) ∧
    (∀ (data : Raw) (v : Value) (cpu ram disk : Option Int),
      rawGet data "accelerator" = some v → pyInt v = none →
      coerceOptInt (rawGet data "cpu") = .ok cpu →
      coerceOptInt (rawGet data "ram") = .ok ram →
      coerceOptInt (get_first data diskKeys) = .ok disk →
      V2.normalize_resources data =
        .ok ⟨cpu, ram, some 0, coerceOptStr (get_first data V2.shapeKeys), disk⟩) := by
  refine ⟨?_, ?_, ?_, ?_, ?_⟩
  · intro data s v k h1 h2 hok
    rw [v2_accel_of_ok data s hok]
    simp [V2.resolveAccelerator, h1, h2]
  · intro data s v k h1 h2 h3 hok
    rw [v2_accel_of_ok data s hok]
    simp [V2.resolveAccelerator, h1, h2, h3]
  · intro data s v k h1 h2 h3 h4 hok
    rw [v2_accel_of_ok data s hok]
    simp [V2.resolveAccelerator, h1, h2, h3, h4]
  · intro data s h1 h2 h3 hok
    rw [v2_accel_of_ok data s hok]
    simp [V2.resolveAccelerator, h1, h2, h3]
  · intro data v cpu ram disk h1 h2 hc hr hd
    unfold V2.normalize_resources
    rw [hc, hr, hd]
    have : V2.resolveAccelerator data = 0 := by
      simp [V2.resolveAccelerator, h1, h2]
    rw [this]

/-- Witness for C8: an invalid accelerator value normalizes to the default 0
without an error. -/
theorem v2_accelerator_resolution_witness :
    V2.normalize_resources [("accelerator", some (.vstr "bad"))] =
      .ok ⟨none, none, some 0, none, none⟩ :=
  v2_accelerator_resolution.2.2.2.2 [("accelerator", some (.vstr "bad"))]
    (.vstr "bad") none none none rfl rfl rfl rfl rfl

/-- C9: memory-to-gigabyte conversion.  Above the 1000000 threshold the result
is the exact ceiling of the input over `gbBytes` (so 2147483648 maps to 2);
positive input at or below the threshold is returned unchanged (4 maps to 4);
zero, negative, null, and unparseable input map to null. -/
theorem normalize_ram_gb_correct :
    (∀ n : Int, 1000000 < n →
      ∃ q : Int, normalize_ram_gb (some (.vint n)) = some q ∧
        (q - 1) * (gbBytes : Int) < n ∧ n ≤ q * (gbBytes : Int)) ∧
    normalize_ram_gb (some (.vint 2147483648)) = some 2 ∧
    (∀ n : Int, 0 < n → n ≤ 1000000 →
      normalize_ram_gb (some (.vint n)) = some n) ∧
    normalize_ram_gb (some (.vint 4)) = some 4 ∧
    (∀ n : Int, n ≤ 0 → normalize_ram_gb (some (.vint n)) = none) ∧
    normalize_ram_gb (some (.vint 0)) = none ∧
    normalize_ram_gb none = none ∧
    (∀ v : Value, pyFloat v = none → normalize_ram_gb (some v) = none) ∧
    normalize_ram_gb (some (.vstr "not-a-number")) = none := by
  refine ⟨?_, by decide, ?_, by decide, ?_, by decide, rfl, ?_, by decide⟩
  · intro n hn
    have h1 : ¬ n ≤ 0 := by omega
    refine ⟨(((n.toNat + (gbBytes - 1)) / gbBytes : Nat) : Int), ?_, ?_, ?_⟩
    · simp [normalize_ram_gb, pyFloat, pyInt, h1, hn]
    · have hc : 0 < gbBytes := by decide
      have hm1 : 1 ≤ n.toNat := by omega
      have hq : (n.toNat + (gbBytes - 1)) / gbBytes = (n.toNat - 1) / gbBytes + 1 := by
        have he : n.toNat + (gbBytes - 1) = (n.toNat - 1) + gbBytes := by omega
        rw [he, Nat.add_div_right _ hc]
      have h3 : ((n.toNat - 1) / gbBytes) * gbBytes ≤ n.toNat - 1 :=
        Nat.div_mul_le_self _ _
      have hgb : gbBytes = 1073741824 := by decide
      rw [hq, hgb] at *
      omega
    · have hc : 0 < gbBytes := by decide
      have hm1 : 1 ≤ n.toNat := by omega
      have hq : (n.toNat + (gbBytes - 1)) / gbBytes = (n.toNat - 1) / gbBytes + 1 := by
        have he : n.toNat + (gbBytes - 1) = (n.toNat - 1) + gbBytes := by omega
        rw [he, Nat.add_div_right _ hc]
      have h4 : n.toNat - 1 < ((n.toNat - 1) / gbBytes + 1) * gbBytes :=
        (Nat.div_lt_iff_lt_mul hc).mp (Nat.lt_succ_self _)
      have hgb : gbBytes = 1073741824 := by decide
      rw [hq, hgb] at *
      omega
  · intro n h0 hle
    have ha : ¬ n ≤ 0 := by omega
    have hb : ¬ 1000000 < n := by omega
    simp [normalize_ram_gb, pyFloat, pyInt, ha, hb]
  · intro n h
    simp [normalize_ram_gb, pyFloat, pyInt, h]
  · intro v h
    simp [normalize_ram_gb, h]

/-- Witness for C9 at the bytes-scale input of the spec. -/
theorem normalize_ram_gb_correct_witness :
    ∃ q : Int, normalize_ram_gb (some (.vint 2147483648)) = some q ∧
      (q - 1) * (gbBytes : Int) < 2147483648 ∧ 2147483648 ≤ q * (gbBytes : Int) :=
  normalize_ram_gb_correct.1 2147483648 (by norm_num)

/-! The `jobs` table and its atomic statements. -/

/-- Job status strings of both service variants. -/
inductive Status where
  | queued | running | finished | failed | killed | killing | cleaned
deriving DecidableEq, Repr

/-- One row of the `jobs` table (the fields the modeled statements touch;
`created_at` is the insertion timestamp defining claim order). -/
structure Job where
  job_id : String
  status : Status
  command : String
  workdir : String
  returncode : Option Int
  stdout : Option String
  stderr : Option String
  created_at : Nat
deriving DecidableEq, Repr

/-- The persistent `jobs` table. -/
abbrev DB := List Job

/-- Row predicate of the conditional claim update: same id and still queued. -/
def claimPred (jid : String) (j : Job) : Bool :=
  j.job_id == jid && j.status == Status.queued

/-- Number of rows the conditional claim update affects. -/
def queuedMatches (db : DB) (jid : String) : Nat :=
  (db.filter (claimPred jid)).length

/-- The conditional update of `_claim_next_job_id` (lines 284-287): set status
running where the id matches and the row is still queued, as one atomic
statement; returns the new table and the affected-row count. -/
def claimUpdate (jid : String) (db : DB) : DB × Nat :=
  (db.map fun j => if claimPred jid j then { j with status := Status.running } else j,
   queuedMatches db jid)

/-- The select of `_fetch_job` (one row by primary key, `fetchone`). -/
def _fetch_job (db : DB) (jid : String) : Option Job :=
  db.find? fun j => j.job_id == jid

/-- The select of `_claim_next_job_id` (lines 276-279): some queued row with
minimal `created_at` (the model keeps the earlier-listed row on ties; MySQL
leaves tie order unspecified, which is safe because the conditional update
re-checks the predicate). -/
def oldestQueued : DB → Option Job
  | [] => none
  | j :: rest =>
    if j.status == Status.queued then
      match oldestQueued rest with
      | none => some j
      | some b => if b.created_at < j.created_at then some b else some j
    else oldestQueued rest

/-- `_claim_next_job_id` (lines 269-290), with the table state at select time
and at update time distinguished: under concurrent claimants they may differ,
each SQL statement being individually atomic under autocommit.  Returns the
claimed id (or none) together with the table after the attempt. -/
def _claim_next_job_id (dbSel dbUpd : DB) : Option String × DB :=
  match oldestQueued dbSel with
  | none => (none, dbUpd)
  | some j =>
    let r := claimUpdate j.job_id dbUpd
    if r.2 = 0 then (none, r.1) else (some j.job_id, r.1)

/-- A run of atomic conditional claim updates: each racing claimant contributes
the update statement of its attempt, aimed at whatever job id its (read-only)
select returned. -/
def runClaims : DB → List String → DB
  | db, [] => db
  | db, t :: ts => runClaims (claimUpdate t db).1 ts

/-- Number of attempts in such a run that target `jid` and observe a positive
affected-row count (the success criterion at line 288). -/
def successCount : DB → List String → String → Nat
  | _, [], _ => 0
  | db, t :: ts, jid =>
    (if t == jid && decide (0 < (claimUpdate t db).2) then 1 else 0) +
      successCount (claimUpdate t db).1 ts jid

/-- `reset_running_jobs_to_failed` (lines 179-195, same in both variants): one
update flipping every running row to failed, plus the affected-row count. -/
def reset_running_jobs_to_failed (db : DB) : DB × Nat :=
  (db.map fun j =>
    if j.status == Status.running then { j with status := Status.failed } else j,
   (db.filter fun j => j.status == Status.running).length)

/-- The v2 `kill_job` endpoint body (v2/src/gateway/app.py lines 348-370):
404 when the id is unknown, otherwise one unconditional update setting the
status to killing. -/
def kill_job (db : DB) (jid : String) : Except Nat DB :=
  match _fetch_job db jid with
  | none => .error 404
  | some _ =>
    .ok (db.map fun j =>
      if j.job_id == jid then { j with status := Status.killing } else j)

/-! Helper lemmas about the claim statements. -/

/-- A row that went through the conditional claim update never matches its
predicate afterwards. -/
theorem claimPred_after (jid : String) (j : Job) :
    claimPred jid
      (if claimPred jid j then { j with status := Status.running } else j) = false := by
  by_cases h : claimPred jid j
  · rw [if_pos h]
    simp [claimPred]
  · rw [if_neg h]
    simpa using h

/-- After a claim update on `jid` no row matches `jid`'s claim predicate. -/
theorem queuedMatches_claimUpdate_self (jid : String) (db : DB) :
    queuedMatches (claimUpdate jid db).1 jid = 0 := by
  unfold queuedMatches claimUpdate
  simp only
  rw [← List.countP_eq_length_filter, List.countP_map, List.countP_eq_zero]
  intro j _
  simp only [Function.comp]
  simp [claimPred_after jid j]

/-- A claim update never creates new matches for any claim predicate. -/
theorem queuedMatches_claimUpdate_le (t jid : String) (db : DB) :
    queuedMatches (claimUpdate t db).1 jid ≤ queuedMatches db jid := by
  unfold queuedMatches claimUpdate
  simp only
  rw [← List.countP_eq_length_filter, ← List.countP_eq_length_filter, List.countP_map]
  apply List.countP_mono_left
  intro j _ h
  simp only [Function.comp] at h
  by_cases ht : claimPred t j
  · rw [if_pos ht] at h
    simp [claimPred] at h
  · rwa [if_neg ht] at h

/-- With no matching queued row left, no later attempt on `jid` succeeds. -/
theorem successCount_of_no_queued (ts : List String) :
    ∀ db jid, queuedMatches db jid = 0 → successCount db ts jid = 0 := by
  induction ts with
  | nil => intro db jid _; rfl
  | cons t ts ih =>
    intro db jid h
    have h2 : queuedMatches (claimUpdate t db).1 jid = 0 :=
      Nat.le_zero.mp (h ▸ queuedMatches_claimUpdate_le t jid db)
    unfold successCount
    rw [ih _ _ h2]
    by_cases he : t = jid
    · subst he
      have hz : (claimUpdate t db).2 = 0 := h
      simp [hz]
    · simp [he]

/-- In any run of conditional claim updates at most one attempt on a given job
succeeds. -/
theorem successCount_le_one (ts : List String) :
    ∀ db jid, successCount db ts jid ≤ 1 := by
  induction ts with
  | nil => intro db jid; exact Nat.zero_le 1
  | cons t ts ih =>
    intro db jid
    unfold successCount
    by_cases hc : (t == jid && decide (0 < (claimUpdate t db).2)) = true
    · have ht : t = jid := by
        have := (Bool.and_eq_true ..).mp hc
        simpa using this.1
      have h0 : queuedMatches (claimUpdate t db).1 jid = 0 := by
        rw [← ht]; exact queuedMatches_claimUpdate_self t db
      rw [successCount_of_no_queued ts _ _ h0, if_pos hc]
    · rw [if_neg hc]
      simpa using ih (claimUpdate t db).1 jid

/-- A zero-row claim update leaves the table untouched. -/
theorem claimUpdate_of_zero (jid : String) :
    ∀ db : DB, queuedMatches db jid = 0 → (claimUpdate jid db).1 = db := by
  intro db h
  unfold claimUpdate
  simp only
  unfold queuedMatches at h
  rw [← List.countP_eq_length_filter, List.countP_eq_zero] at h
  induction db with
  | nil => rfl
  | cons a rest ih =>
    have hpa : claimPred jid a = false := by
      have := h a (List.mem_cons_self a rest)
      simpa using this
    rw [List.map_cons, if_neg (by simp [hpa]),
      ih (fun x hx => h x (List.mem_cons_of_mem a hx))]

/-- `oldestQueued` returns none exactly when no row is queued. -/
theorem oldestQueued_eq_none :
    ∀ db : DB, oldestQueued db = none ↔ ∀ j ∈ db, j.status ≠ Status.queued := by
  intro db
  induction db with
  | nil => simp [oldestQueued]
  | cons a rest ih =>
    by_cases ha : a.status == Status.queued
    · rw [oldestQueued, if_pos ha]
      constructor
      · intro h
        exfalso
        cases hr : oldestQueued rest with
        | none =>
          rw [hr] at h
          exact Option.noConfusion h
        | some b =>
          rw [hr] at h
          have h2 : (if b.created_at < a.created_at then some b else some a) =
              (none : Option Job) := h
          by_cases hb : b.created_at < a.created_at
          · rw [if_pos hb] at h2; exact Option.noConfusion h2
          · rw [if_neg hb] at h2; exact Option.noConfusion h2
      · intro h
        exact absurd (by simpa using ha) (h a (List.mem_cons_self a rest))
    · rw [oldestQueued, if_neg ha]
      rw [ih]
      constructor
      · intro h j hj
        rcases List.mem_cons.mp hj with rfl | hj2
        · simpa using ha
        · exact h j hj2
      · intro h j hj
        exact h j (List.mem_cons_of_mem a hj)

/-- A row returned by `oldestQueued` is a queued row of minimal `created_at`. -/
theorem oldestQueued_spec :
    ∀ (db : DB) (j : Job), oldestQueued db = some j →
      j ∈ db ∧ j.status = Status.queued ∧
        ∀ k ∈ db, k.status = Status.queued → j.created_at ≤ k.created_at := by
  intro db
  induction db with
  | nil => intro j h; exact absurd h (by simp [oldestQueued])
  | cons a rest ih =>
    intro j h
    by_cases ha : a.status == Status.queued
    · rw [oldestQueued, if_pos ha] at h
      cases hr : oldestQueued rest with
      | none =>
        rw [hr] at h
        have h2 : some a = some j := h
        injection h2 with h2
        subst h2
        refine ⟨List.mem_cons_self a rest, by simpa using ha, ?_⟩
        intro k hk hkq
        rcases List.mem_cons.mp hk with rfl | hk2
        · exact le_rfl
        · exact absurd hkq (((oldestQueued_eq_none rest).mp hr) k hk2)
      | some b =>
        rw [hr] at h
        have h2 : (if b.created_at < a.created_at then some b else some a) =
            some j := h
        obtain ⟨hbmem, hbq, hbmin⟩ := ih b hr
        by_cases hlt : b.created_at < a.created_at
        · rw [if_pos hlt] at h2
          injection h2 with h2
          subst h2
          refine ⟨List.mem_cons_of_mem a hbmem, hbq, ?_⟩
          intro k hk hkq
          rcases List.mem_cons.mp hk with rfl | hk2
          · exact Nat.le_of_lt hlt
          · exact hbmin k hk2 hkq
        · rw [if_neg hlt] at h2
          injection h2 with h2
          subst h2
          refine ⟨List.mem_cons_self a rest, by simpa using ha, ?_⟩
          intro k hk hkq
          rcases List.mem_cons.mp hk with rfl | hk2
          · exact le_rfl
          · exact Nat.le_trans (Nat.le_of_not_lt hlt) (hbmin k hk2 hkq)
    · rw [oldestQueued, if_neg ha] at h
      obtain ⟨hmem, hq, hmin⟩ := ih j h
      refine ⟨List.mem_cons_of_mem a hmem, hq, ?_⟩
      intro k hk hkq
      rcases List.mem_cons.mp hk with rfl | hk2
      · exact absurd hkq (by simpa using ha)
      · exact hmin k hk2 hkq

/-- A positive affected-row count means a matching queued row existed. -/
theorem claimUpdate_pos_iff (jid : String) (db : DB) :
    0 < (claimUpdate jid db).2 ↔
      ∃ k ∈ db, k.job_id = jid ∧ k.status = Status.queued := by
  unfold claimUpdate queuedMatches
  simp only
  rw [← List.countP_eq_length_filter, List.countP_pos_iff]
  constructor
  · rintro ⟨k, hk, hp⟩
    refine ⟨k, hk, ?_⟩
    simpa [claimPred] using hp
  · rintro ⟨k, hk, h1, h2⟩
    exact ⟨k, hk, by simp [claimPred, h1, h2]⟩

/-- C1: for all concurrent claim attempts against the same queued job at most
one succeeds: any interleaving of the atomic conditional updates yields at most
one positive affected-row count for a given job id, and a success happens only
by flipping a row that was still queued to running. -/
theorem claim_succeeds_at_most_once (db : DB) (ts : List String) (jid : String) :
    successCount db ts jid ≤ 1 ∧
    (0 < (claimUpdate jid db).2 →
      ∃ j, j ∈ db ∧ j.job_id = jid ∧ j.status = Status.queued ∧
        { j with status := Status.running } ∈ (claimUpdate jid db).1) := by
  refine ⟨successCount_le_one ts db jid, ?_⟩
  intro h
  obtain ⟨j, hj, h1, h2⟩ := (claimUpdate_pos_iff jid db).mp h
  refine ⟨j, hj, h1, h2, ?_⟩
  have hp : claimPred jid j = true := by simp [claimPred, h1, h2]
  have hm := List.mem_map_of_mem
    (fun j => if claimPred jid j then { j with status := Status.running } else j) hj
  simp only [if_pos hp] at hm
  exact hm

/-- Sample queued job used by concrete witnesses. -/
def jobA : Job :=
  { job_id := "a", status := Status.queued, command := "c", workdir := "w",
    returncode := none, stdout := none, stderr := none, created_at := 1 }

/-- Second, younger sample queued job used by concrete witnesses. -/
def jobB : Job :=
  { job_id := "b", status := Status.queued, command := "c", workdir := "w",
    returncode := none, stdout := none, stderr := none, created_at := 5 }

/-- Witness for C1: two racing attempts on one queued job; the success flips
the row to running. -/
theorem claim_succeeds_at_most_once_witness :
    successCount [jobA] ["a", "a"] "a" ≤ 1 ∧
    ∃ j, j ∈ [jobA] ∧ j.job_id = "a" ∧ j.status = Status.queued ∧
      { j with status := Status.running } ∈ (claimUpdate "a" [jobA]).1 :=
  ⟨(claim_succeeds_at_most_once [jobA] ["a", "a"] "a").1,
   (claim_succeeds_at_most_once [jobA] ["a", "a"] "a").2 (by decide)⟩

/-- C2: `_claim_next_job_id` selects an oldest queued row, conditionally flips
it to running only if it is still queued at update time, answers none when
nothing is queued, and answers none without touching the table (no internal
retry) when the conditional update affects zero rows. -/
theorem claim_next_job_spec (dbSel dbUpd : DB) :
    (oldestQueued dbSel = none → _claim_next_job_id dbSel dbUpd = (none, dbUpd)) ∧
    ((∀ j ∈ dbSel, j.status ≠ Status.queued) →
      _claim_next_job_id dbSel dbUpd = (none, dbUpd)) ∧
    (∀ j, oldestQueued dbSel = some j → j ∈ dbSel ∧ j.status = Status.queued ∧
      ∀ k ∈ dbSel, k.status = Status.queued → j.created_at ≤ k.created_at) ∧
    (∀ j, oldestQueued dbSel = some j →
      (0 < (claimUpdate j.job_id dbUpd).2 ↔
        ∃ k ∈ dbUpd, k.job_id = j.job_id ∧ k.status = Status.queued)) ∧
    (∀ j, oldestQueued dbSel = some j → (claimUpdate j.job_id dbUpd).2 = 0 →
      _claim_next_job_id dbSel dbUpd = (none, dbUpd)) ∧
    (∀ j, oldestQueued dbSel = some j → 0 < (claimUpdate j.job_id dbUpd).2 →
      _claim_next_job_id dbSel dbUpd =
        (some j.job_id, (claimUpdate j.job_id dbUpd).1)) := by
  refine ⟨?_, ?_, oldestQueued_spec dbSel, ?_, ?_, ?_⟩
  · intro h
    unfold _claim_next_job_id
    rw [h]
  · intro h
    unfold _claim_next_job_id
    rw [(oldestQueued_eq_none dbSel).mpr h]
  · intro j _
    exact claimUpdate_pos_iff j.job_id dbUpd
  · intro j hj hz
    unfold _claim_next_job_id
    rw [hj]
    show (if (claimUpdate j.job_id dbUpd).2 = 0 then
        ((none : Option String), (claimUpdate j.job_id dbUpd).1)
      else (some j.job_id, (claimUpdate j.job_id dbUpd).1)) = (none, dbUpd)
    rw [if_pos hz, claimUpdate_of_zero j.job_id dbUpd hz]
  · intro j hj hp
    unfold _claim_next_job_id
    rw [hj]
    show (if (claimUpdate j.job_id dbUpd).2 = 0 then
        ((none : Option String), (claimUpdate j.job_id dbUpd).1)
      else (some j.job_id, (claimUpdate j.job_id dbUpd).1)) =
      (some j.job_id, (claimUpdate j.job_id dbUpd).1)
    rw [if_neg (by omega)]

/-- Witness for C2: among two queued jobs the older is selected and claimed. -/
theorem claim_next_job_spec_witness :
    _claim_next_job_id [jobB, jobA] [jobB, jobA] =
      (some "a", [jobB, { jobA with status := Status.running }]) := by
  have h := (claim_next_job_spec [jobB, jobA] [jobB, jobA]).2.2.2.2.2 jobA
    (by decide) (by decide)
  exact h.trans (by decide)

/-- Updating every row of a given id with an id-preserving change commutes
with fetching that id. -/
theorem fetch_map_update (g : Job → Job) (hg : ∀ j, (g j).job_id = j.job_id) :
    ∀ (db : DB) (jid : String) (row : Job), _fetch_job db jid = some row →
      _fetch_job (db.map fun j => if j.job_id == jid then g j else j) jid =
        some (g row) := by
  intro db
  induction db with
  | nil => intro jid row h; exact absurd h (by simp [_fetch_job])
  | cons a rest ih =>
    intro jid row h
    unfold _fetch_job at h ⊢
    by_cases ha : (a.job_id == jid) = true
    · rw [@List.find?_cons_of_pos Job (fun j => j.job_id == jid) a rest ha] at h
      injection h with h
      subst h
      simp only [List.map_cons, if_pos ha]
      exact @List.find?_cons_of_pos Job (fun j => j.job_id == jid) (g a) _
        (by show ((g a).job_id == jid) = true; rw [hg a]; exact ha)
    · rw [@List.find?_cons_of_neg Job (fun j => j.job_id == jid) a rest ha] at h
      simp only [List.map_cons, if_neg ha]
      rw [@List.find?_cons_of_neg Job (fun j => j.job_id == jid) a _ ha]
      exact ih jid row h

/-- The failed-row population grows by exactly the number of running rows when
every running row is flipped to failed. -/
theorem countP_failed_after_reset (db : DB) :
    List.countP
        ((fun j => j.status == Status.failed) ∘ fun j =>
          if j.status == Status.running then { j with status := Status.failed }
          else j) db =
      List.countP (fun j => j.status == Status.failed) db +
        List.countP (fun j => j.status == Status.running) db := by
  induction db with
  | nil => rfl
  | cons a rest ih =>
    simp only [List.countP_cons, Function.comp, ih]
    by_cases ha : a.status = Status.running
    · have hb : (a.status == Status.running) = true := by simp [ha]
      have hf : (a.status == Status.failed) = false := by simp [ha]
      simp only [hb, hf]
      simp
      omega
    · have hb : (a.status == Status.running) = false := by simpa using ha
      simp only [hb]
      simp
      omega

/-- C3: startup reconciliation transitions every running row to failed and
nothing else: table size is kept, the failed population grows by exactly the
reported affected-row count, no running row remains (so none exists when the
first claim is served), non-running rows are untouched, and a reconciled row
keeps every field but the status — in particular a null returncode stays
null. -/
theorem reset_running_spec (db : DB) :
    ((reset_running_jobs_to_failed db).1).length = db.length ∧
    ((reset_running_jobs_to_failed db).1.filter
        (fun j => j.status == Status.failed)).length =
      (db.filter fun j => j.status == Status.failed).length +
        (reset_running_jobs_to_failed db).2 ∧
    (∀ j ∈ (reset_running_jobs_to_failed db).1, j.status ≠ Status.running) ∧
    (∀ j ∈ db, j.status = Status.running →
      { j with status := Status.failed } ∈ (reset_running_jobs_to_failed db).1) ∧
    (∀ j ∈ db, j.status ≠ Status.running → j ∈ (reset_running_jobs_to_failed db).1) ∧
    (∀ j ∈ db, j.status = Status.running → j.returncode = none →
      ∃ j2 ∈ (reset_running_jobs_to_failed db).1, j2.job_id = j.job_id ∧
        j2.status = Status.failed ∧ j2.returncode = none ∧
        j2.stdout = j.stdout ∧ j2.stderr = j.stderr) := by
  refine ⟨by simp [reset_running_jobs_to_failed], ?_, ?_, ?_, ?_, ?_⟩
  · unfold reset_running_jobs_to_failed
    simp only
    rw [← List.countP_eq_length_filter, ← List.countP_eq_length_filter,
        ← List.countP_eq_length_filter, List.countP_map]
    exact countP_failed_after_reset db
  · intro j hj
    rcases List.mem_map.mp hj with ⟨x, hx, rfl⟩
    by_cases hxr : (x.status == Status.running) = true
    · rw [if_pos hxr]
      simp
    · rw [if_neg hxr]
      simpa using hxr
  · intro j hj hst
    have hp : (j.status == Status.running) = true := by simp [hst]
    have hm := List.mem_map_of_mem
      (fun j => if j.status == Status.running then { j with status := Status.failed }
        else j) hj
    simp only [if_pos hp] at hm
    exact hm
  · intro j hj hst
    have hp : (j.status == Status.running) = false := by simpa using hst
    have hm := List.mem_map_of_mem
      (fun j => if j.status == Status.running then { j with status := Status.failed }
        else j) hj
    have hm2 : (if (j.status == Status.running) = true then
        { j with status := Status.failed } else j) ∈
        db.map (fun j => if j.status == Status.running then
          { j with status := Status.failed } else j) := hm
    rw [if_neg (by simp [hp])] at hm2
    exact hm2
  · intro j hj hst hrc
    have hp : (j.status == Status.running) = true := by simp [hst]
    have hm := List.mem_map_of_mem
      (fun j => if j.status == Status.running then { j with status := Status.failed }
        else j) hj
    simp only [if_pos hp] at hm
    exact ⟨{ j with status := Status.failed }, hm, rfl, rfl, hrc, rfl, rfl⟩

/-- Witness for C3 on a table with one running (returncode null) and one
queued row. -/
theorem reset_running_spec_witness :
    ∃ j2 ∈ (reset_running_jobs_to_failed
        [{ jobA with status := Status.running }, jobB]).1,
      j2.job_id = "a" ∧ j2.status = Status.failed ∧ j2.returncode = none ∧
        j2.stdout = none ∧ j2.stderr = none :=
  (reset_running_spec [{ jobA with status := Status.running }, jobB]).2.2.2.2.2
    { jobA with status := Status.running } (by decide) rfl rfl

/-- C10: the v2 request-kill on any existing job unconditionally sets its
status to killing, whatever the current status — terminal statuses included —
so a terminal job moves back out of terminal state. -/
theorem v2_kill_job_unconditional (db : DB) (jid : String) (row : Job)
    (h : _fetch_job db jid = some row) :
    ∃ db2, kill_job db jid = .ok db2 ∧
      _fetch_job db2 jid = some { row with status := Status.killing } := by
  have hk : kill_job db jid =
      .ok (db.map fun j =>
        if j.job_id == jid then { j with status := Status.killing } else j) := by
    unfold kill_job
    rw [h]
  exact ⟨_, hk, fetch_map_update (fun j => { j with status := Status.killing })
    (fun j => rfl) db jid row h⟩

/-- Witness for C10: a finished job is moved to killing by a kill request. -/
theorem v2_kill_job_unconditional_witness :
    ∃ db2, kill_job [{ jobA with status := Status.finished }] "a" = .ok db2 ∧
      _fetch_job db2 "a" = some { jobA with status := Status.killing } :=
  v2_kill_job_unconditional [{ jobA with status := Status.finished }] "a"
    { jobA with status := Status.finished } (by decide)

/-! The provisioning pipeline: generated command script and the apply/destroy
run. -/

/-- The `storage` object taken from a job's metadata at line 624 of the v1
service (a JSON object of string values; a stored none models JSON null). -/
abbrev StorageDict := List (String × Option String)

/-- Python `str(storage.get(k) or "")`: a missing key, a null and an empty
string all collapse to the empty string. -/
def sgetStr (st : StorageDict) (k : String) : String :=
  match st.lookup k with
  | some (some s) => s
  | _ => ""

/-- Python `a or b` on strings (the empty string is falsy). -/
def pyOrS (a b : String) : String := if a == "" then b else a

/-- `s3_endpoint` at line 666. -/
def s3Endpoint (st : StorageDict) : String := sgetStr st "endpoint"

/-- `s3_bucket` at line 664. -/
def s3Bucket (st : StorageDict) : String := sgetStr st "bucket"

/-- `s3_region` at line 667 (default region us-east-1). -/
def s3Region (st : StorageDict) : String := pyOrS (sgetStr st "region") "us-east-1"

/-- `s3_access` at line 668. -/
def s3Access (st : StorageDict) : String := sgetStr st "accessKey"

/-- `s3_secret` at line 669. -/
def s3Secret (st : StorageDict) : String := sgetStr st "secretKey"

/-- `s3_workdir` at line 665: the storage override, else the row's workdir. -/
def s3Workdir (st : StorageDict) (row : Job) : String :=
  pyOrS (sgetStr st "s3_workdir") row.workdir

/-- `nxf_command` at line 670. -/
def nxfCommand (row : Job) : String := pyOrS row.command "bash .command.run"

/-- `nxf_workdir` at line 671. -/
def nxfWorkdir (row : Job) : String := pyOrS row.workdir "/opt/nxf-work"

/-- `env_vars` at lines 682-694: the nine export lines joined by newlines. -/
def envVars (st : StorageDict) (row : Job) : String :=
  "export S3_ENDPOINT=\"" ++ s3Endpoint st ++ "\"\n" ++
  "export S3_REGION=\"" ++ s3Region st ++ "\"\n" ++
  "export S3_BUCKET=\"" ++ s3Bucket st ++ "\"\n" ++
  "export S3_ACCESS_KEY=\"" ++ s3Access st ++ "\"\n" ++
  "export S3_SECRET_KEY=\"" ++ s3Secret st ++ "\"\n" ++
  "export S3_WORKDIR=\"" ++ s3Workdir st row ++ "\"\n" ++
  "export NXF_COMMAND=\"" ++ nxfCommand row ++ "\"\n" ++
  "export NXF_WORKDIR=\"" ++ nxfWorkdir row ++ "\"\n" ++
  "export NXF_S3_URI=\"s3:/" ++ s3Workdir st row ++ "\""

/-- Shared first lines of both generated scripts (shebang, shell options and
the export block). -/
def scriptHead (st : StorageDict) (row : Job) : String :=
  "#!/bin/bash\nset -euo pipefail\n" ++ envVars st row ++ "\n"

/-- AWS credential exports and local-directory preparation of the sync
variant (lines 703-708). -/
def awsSetup (st : StorageDict) (row : Job) : String :=
  "export AWS_ACCESS_KEY_ID=" ++ s3Access st ++ "\n" ++
  "export AWS_SECRET_ACCESS_KEY=" ++ s3Secret st ++ "\n" ++
  "export AWS_DEFAULT_REGION=" ++ s3Region st ++ "\n" ++
  "export AWS_S3_FORCE_PATH_STYLE=1\n" ++
  "mkdir -p " ++ s3Workdir st row ++ "\n" ++
  "cd " ++ s3Workdir st row ++ "\n"

/-- The echo line preceding evaluation (line 710, trailing space included). -/
def echoLine (row : Job) : String := "echo " ++ nxfCommand row ++ " \n"

/-- The line evaluating the job's command (lines 711 and 723). -/
def evalLine (row : Job) : String := "eval " ++ nxfCommand row ++ "\n"

/-- The completion marker write (lines 712 and 724). -/
def okLine : String := "echo \"ok\" > ok.txt\n"

/-- The bootstrap-done marker (final script line). -/
def doneLine : String := "echo \"done\" > /var/run/bootstrap.done"

/-- The change into the job's working directory (line 721, direct variant). -/
def cdLine (row : Job) : String := "cd " ++ nxfWorkdir row ++ "\n"

/-- The object-storage download sync (line 709). -/
def syncDownLine (st : StorageDict) (row : Job) : String :=
  "aws --endpoint-url " ++ s3Endpoint st ++ " s3 sync s3:/" ++ s3Workdir st row ++
    "/ " ++ s3Workdir st row ++ "/\n"

/-- The object-storage result upload sync (line 713). -/
def syncUpLine (st : StorageDict) (row : Job) : String :=
  "aws --endpoint-url " ++ s3Endpoint st ++ " s3 sync " ++ s3Workdir st row ++
    "/ s3:/" ++ s3Workdir st row ++ "/\n"

/-- The storage-enabled variant of `cmd_script` (lines 699-715, after the
surrounding whitespace is stripped). -/
def syncScript (st : StorageDict) (row : Job) : String :=
  scriptHead st row ++ awsSetup st row ++ syncDownLine st row ++ echoLine row ++
    evalLine row ++ okLine ++ syncUpLine st row ++ doneLine

/-- The storage-free variant of `cmd_script` (lines 717-726). -/
def directScript (st : StorageDict) (row : Job) : String :=
  scriptHead st row ++ cdLine row ++ echoLine row ++ evalLine row ++ okLine ++
    doneLine

/-- The `cmd_script` field computed by `build_tfvars` (line 696): the sync
variant when both the storage endpoint and the bucket are nonempty, the
direct variant otherwise. -/
def build_tfvars_cmd_script (st : StorageDict) (row : Job) : String :=
  if s3Endpoint st != "" && s3Bucket st != "" then syncScript st row
  else directScript st row

/-- Chars `pat` stand at the front of the second list. -/
def charsPref : List Char → List Char → Bool
  | [], _ => true
  | _ :: _, [] => false
  | a :: as, b :: bs => a == b && charsPref as bs

/-- Chars `pat` occur contiguously somewhere inside the second list. -/
def charsSub (pat : List Char) : List Char → Bool
  | [] => charsPref pat []
  | b :: bs => charsPref pat (b :: bs) || charsSub pat bs

/-- Substring occurrence stated as a decomposition. -/
def strContains (s sub : String) : Prop := ∃ a b : String, s = a ++ (sub ++ b)

theorem charsPref_self_append (p r : List Char) : charsPref p (p ++ r) = true := by
  induction p with
  | nil => rfl
  | cons a as ih => simp [charsPref, ih]

theorem charsSub_self_append (p r : List Char) : charsSub p (p ++ r) = true := by
  cases p with
  | nil =>
    cases r with
    | nil => rfl
    | cons b bs => simp [charsSub, charsPref]
  | cons a as =>
    simp only [List.cons_append, charsSub, Bool.or_eq_true]
    exact Or.inl (charsPref_self_append (a :: as) r)

theorem charsSub_append_left (p : List Char) :
    ∀ l r, charsSub p r = true → charsSub p (l ++ r) = true := by
  intro l
  induction l with
  | nil => intro r h; simpa using h
  | cons b bs ih =>
    intro r h
    simp only [List.cons_append, charsSub, Bool.or_eq_true]
    exact Or.inr (ih r h)

/-- A witnessed decomposition makes the boolean occurrence check true. -/
theorem strContains_charsSub (s sub : String) (h : strContains s sub) :
    charsSub sub.data s.data = true := by
  obtain ⟨a, b, rfl⟩ := h
  rw [String.data_append, String.data_append]
  exact charsSub_append_left _ _ _ (charsSub_self_append _ _)

/-- Outcome of the external `autorun.sh ... apply` subprocess (exit code and
captured streams); the provisioning tool is an external collaborator, so its
behavior is an input of the model. -/
structure ApplyResult where
  returncode : Int
  stdout : String
  stderr : String
deriving DecidableEq, Repr

/-- Python `s.endswith` specialized to the newline check of line 345. -/
def endsWithNewline (s : String) : Bool :=
  match s.data.getLast? with
  | some c => c == '\n'
  | none => false

/-- `cmd_script_content` normalization at lines 342-347: a trailing newline is
appended to a nonempty script before it is written and echoed into the
stream headers. -/
def cmdScriptContent (st : StorageDict) (row : Job) : String :=
  let c := build_tfvars_cmd_script st row
  if c == "" then c else if endsWithNewline c then c else c ++ "\n"

/-- The header pushed onto both stream buffers (lines 359-360). -/
def streamHeader (st : StorageDict) (row : Job) : String :=
  "[executor] job " ++ row.job_id ++ "\ncmd_script:\n" ++ cmdScriptContent st row

/-- The stderr annotation recorded when apply exits nonzero (lines 379-381). -/
def applyFailMsg (code : Int) : String :=
  "[executor] autorun apply failed (code " ++ (toString code ++ ")\n")

/-- `_run_job_sync` (lines 307-398): fetch the row (a missing row returns the
not-found error), build the script and stream headers, run apply synchronously
(outcome given), fire-and-forget destroy (launch outcome given and, as in the
source, used only for logging), and return the returncode together with the
joined stream buffers.  The stdout buffer receives the apply stdout; the
stderr buffer receives only the failure annotation. -/
def _run_job_sync (st : StorageDict) (db : DB) (jid : String)
    (applyProc : ApplyResult) (_destroyLaunchOk : Bool) : Int × String × String :=
  match _fetch_job db jid with
  | none => (1, "", "[executor] job " ++ jid ++ " not found in DB")
  | some row =>
    let header := streamHeader st row
    ((if applyProc.returncode == 0 then (0 : Int) else 1),
     header ++ applyProc.stdout,
     if applyProc.returncode == 0 then header
     else header ++ applyFailMsg applyProc.returncode)

/-- `_update_job_after_run` (lines 401-415): one unconditional single-row
update of returncode, stdout, stderr and status. -/
def _update_job_after_run (db : DB) (jid : String) (returncode : Int)
    (stdout stderr : String) (status : Status) : DB :=
  db.map fun j =>
    if j.job_id == jid then
      { j with returncode := some returncode, stdout := some stdout,
               stderr := some stderr, status := status }
    else j

/-- Lines 301-304 of `_claim_and_run_next_job`: after a successful claim of
`jid`, run synchronously and record the outcome. -/
def runClaimedJob (st : StorageDict) (db : DB) (jid : String)
    (applyProc : ApplyResult) (destroyOk : Bool) : DB :=
  let r := _run_job_sync st db jid applyProc destroyOk
  _update_job_after_run db jid r.1 r.2.1 r.2.2
    (if r.1 == 0 then Status.finished else Status.failed)

/-- `_claim_and_run_next_job` (lines 293-305): claim, then run and record;
returns the new table and whether a job was processed. -/
def _claim_and_run_next_job (st : StorageDict) (db : DB)
    (applyProc : ApplyResult) (destroyOk : Bool) : DB × Bool :=
  match _claim_next_job_id db db with
  | (none, db1) => (db1, false)
  | (some jid, db1) => (runClaimedJob st db1 jid applyProc destroyOk, true)

/-- Fetching after `_update_job_after_run` sees the updated row. -/
theorem fetch_after_update (db : DB) (jid : String) (row : Job)
    (h : _fetch_job db jid = some row) (rc : Int) (o e : String) (stt : Status) :
    _fetch_job (_update_job_after_run db jid rc o e stt) jid =
      some { row with
        returncode := some rc, stdout := some o,
        stderr := some e, status := stt } :=
  fetch_map_update
    (fun j => { j with
      returncode := some rc, stdout := some o,
      stderr := some e, status := stt })
    (fun _ => rfl) db jid row h

/-- The run result of a present row, spelled out. -/
theorem run_job_sync_eq (st : StorageDict) (db : DB) (jid : String) (row : Job)
    (applyProc : ApplyResult) (d : Bool) (h : _fetch_job db jid = some row) :
    _run_job_sync st db jid applyProc d =
      ((if applyProc.returncode == 0 then (0 : Int) else 1),
       streamHeader st row ++ applyProc.stdout,
       if applyProc.returncode == 0 then streamHeader st row
       else streamHeader st row ++ applyFailMsg applyProc.returncode) := by
  unfold _run_job_sync
  rw [h]

/-- C4: apply exit 0 records terminal status finished with returncode 0;
nonzero exit records failed with the apply exit code inside the stored stderr;
the destroy step is fire-and-forget — its exit is not even an input of the
run, and the recorded outcome is independent of whether its launch
succeeded. -/
theorem run_claimed_job_outcome (st : StorageDict) (db : DB) (jid : String)
    (row : Job) (applyProc : ApplyResult) (d : Bool)
    (h : _fetch_job db jid = some row) :
    (applyProc.returncode = 0 →
      ∃ j2, _fetch_job (runClaimedJob st db jid applyProc d) jid = some j2 ∧
        j2.status = Status.finished ∧ j2.returncode = some 0) ∧
    (applyProc.returncode ≠ 0 →
      ∃ j2, _fetch_job (runClaimedJob st db jid applyProc d) jid = some j2 ∧
        j2.status = Status.failed ∧
        strContains (j2.stderr.getD "") (toString applyProc.returncode)) ∧
    (∀ d2 : Bool,
      runClaimedJob st db jid applyProc d = runClaimedJob st db jid applyProc d2) := by
  refine ⟨?_, ?_, fun d2 => rfl⟩
  · intro h0
    have hs : (applyProc.returncode == 0) = true := by simp [h0]
    have hr : _run_job_sync st db jid applyProc d =
        (0, streamHeader st row ++ applyProc.stdout, streamHeader st row) := by
      rw [run_job_sync_eq st db jid row applyProc d h, if_pos hs, if_pos hs]
    have hf := fetch_after_update db jid row h 0
      (streamHeader st row ++ applyProc.stdout) (streamHeader st row)
      Status.finished
    refine ⟨{ row with
      returncode := some 0, stdout := some (streamHeader st row ++ applyProc.stdout),
      stderr := some (streamHeader st row), status := Status.finished },
      ?_, rfl, rfl⟩
    simp only [runClaimedJob, hr]
    exact hf
  · intro h0
    have hs : ¬ ((applyProc.returncode == 0) = true) := by simp [h0]
    have hr : _run_job_sync st db jid applyProc d =
        (1, streamHeader st row ++ applyProc.stdout,
         streamHeader st row ++ applyFailMsg applyProc.returncode) := by
      rw [run_job_sync_eq st db jid row applyProc d h, if_neg hs, if_neg hs]
    have hf := fetch_after_update db jid row h 1
      (streamHeader st row ++ applyProc.stdout)
      (streamHeader st row ++ applyFailMsg applyProc.returncode) Status.failed
    refine ⟨{ row with
      returncode := some 1, stdout := some (streamHeader st row ++ applyProc.stdout),
      stderr := some (streamHeader st row ++ applyFailMsg applyProc.returncode),
      status := Status.failed }, ?_, rfl, ?_⟩
    · simp only [runClaimedJob, hr]
      exact hf
    · refine ⟨streamHeader st row ++ "[executor] autorun apply failed (code ",
        ")\n", ?_⟩
      show streamHeader st row ++ applyFailMsg applyProc.returncode = _
      unfold applyFailMsg
      rw [← String.append_assoc]

/-- Witness for C4: a failed apply (exit 2) ends failed with the code in
stderr. -/
theorem run_claimed_job_outcome_witness :
    ∃ j2, _fetch_job (runClaimedJob [] [jobA] "a" ⟨2, "out", "err"⟩ true) "a" =
        some j2 ∧
      j2.status = Status.failed ∧
      strContains (j2.stderr.getD "") (toString (2 : Int)) :=
  (run_claimed_job_outcome [] [jobA] "a" jobA ⟨2, "out", "err"⟩ true
    (by decide)).2.1 (by decide)

/-- Concrete job of the end-to-end script test (echo hi in /data/work). -/
def testJob : Job :=
  { job_id := "t", status := Status.queued, command := "echo hi",
    workdir := "/data/work", returncode := none, stdout := none, stderr := none,
    created_at := 0 }

/-- Storage dict of the end-to-end test with endpoint and bucket set. -/
def testStorage : StorageDict :=
  [("endpoint", some "http://minio:9000"), ("bucket", some "nf")]

/-- C5: with both a storage endpoint and a bucket set, the generated script
syncs object storage down to the local path, afterwards evaluates the job's
command, and still later syncs results back; without an endpoint-and-bucket
pair, the script changes into the job's working directory and evaluates the
command directly, and on the spec's end-to-end input contains no sync step at
all. -/
theorem cmd_script_storage_spec (st : StorageDict) (row : Job) :
    (s3Endpoint st ≠ "" → s3Bucket st ≠ "" →
      ∃ a b c, build_tfvars_cmd_script st row =
        a ++ (syncDownLine st row ++ (b ++ (evalLine row ++
          (c ++ (syncUpLine st row ++ doneLine)))))) ∧
    (¬ (s3Endpoint st ≠ "" ∧ s3Bucket st ≠ "") →
      ∃ a b, build_tfvars_cmd_script st row =
        a ++ (cdLine row ++ (echoLine row ++ (evalLine row ++ b)))) ∧
    charsSub "s3 sync".data (build_tfvars_cmd_script [] testJob).data = false ∧
    charsSub (cdLine testJob).data (build_tfvars_cmd_script [] testJob).data = true ∧
    charsSub (evalLine testJob).data (build_tfvars_cmd_script [] testJob).data = true := by
  refine ⟨?_, ?_, by decide, by decide, by decide⟩
  · intro he hb
    have hcond : (s3Endpoint st != "" && s3Bucket st != "") = true := by
      simp [he, hb]
    unfold build_tfvars_cmd_script
    rw [if_pos hcond]
    refine ⟨scriptHead st row ++ awsSetup st row, echoLine row, okLine, ?_⟩
    unfold syncScript
    simp only [String.append_assoc]
  · intro hnot
    have hcond : ¬ ((s3Endpoint st != "" && s3Bucket st != "") = true) := by
      rcases not_and_or.mp hnot with h1 | h1
      · have h2 : s3Endpoint st = "" := not_ne_iff.mp h1
        simp [h2]
      · have h2 : s3Bucket st = "" := not_ne_iff.mp h1
        simp [h2]
    unfold build_tfvars_cmd_script
    rw [if_neg hcond]
    refine ⟨scriptHead st row, okLine ++ doneLine, ?_⟩
    unfold directScript
    simp only [String.append_assoc]

/-- Witness for C5 at the end-to-end test input with storage configured. -/
theorem cmd_script_storage_spec_witness :
    ∃ a b c, build_tfvars_cmd_script testStorage testJob =
      a ++ (syncDownLine testStorage testJob ++ (b ++ (evalLine testJob ++
        (c ++ (syncUpLine testStorage testJob ++ doneLine))))) :=
  (cmd_script_storage_spec testStorage testJob).1 (by decide) (by decide)

/-- C6 (amended): the stored stdout is the script header followed by the apply
subprocess's captured stdout; the stored stderr is the script header plus, on
nonzero exit, the apply-failure annotation; the captured stderr stream of the
apply subprocess never reaches the record — the run's outcome does not depend
on it. -/
theorem recorded_streams_spec (st : StorageDict) (db : DB) (jid : String)
    (row : Job) (applyProc : ApplyResult) (d : Bool)
    (h : _fetch_job db jid = some row) :
    (∃ j2, _fetch_job (runClaimedJob st db jid applyProc d) jid = some j2 ∧
      j2.stdout = some (streamHeader st row ++ applyProc.stdout) ∧
      j2.stderr = some (if applyProc.returncode == 0 then streamHeader st row
        else streamHeader st row ++ applyFailMsg applyProc.returncode)) ∧
    (∀ e : String,
      runClaimedJob st db jid { applyProc with stderr := e } d =
        runClaimedJob st db jid applyProc d) := by
  refine ⟨?_, fun e => rfl⟩
  have hr := run_job_sync_eq st db jid row applyProc d h
  have hf := fetch_after_update db jid row h
    (if applyProc.returncode == 0 then (0 : Int) else 1)
    (streamHeader st row ++ applyProc.stdout)
    (if applyProc.returncode == 0 then streamHeader st row
      else streamHeader st row ++ applyFailMsg applyProc.returncode)
    (if (if applyProc.returncode == 0 then (0 : Int) else 1) == 0 then
      Status.finished else Status.failed)
  refine ⟨{ row with
    returncode := some (if applyProc.returncode == 0 then (0 : Int) else 1),
    stdout := some (streamHeader st row ++ applyProc.stdout),
    stderr := some (if applyProc.returncode == 0 then streamHeader st row
      else streamHeader st row ++ applyFailMsg applyProc.returncode),
    status := if (if applyProc.returncode == 0 then (0 : Int) else 1) == 0 then
      Status.finished else Status.failed }, ?_, rfl, rfl⟩
  simp only [runClaimedJob, hr]
  exact hf

/-- Witness for the amended C6 at a successful concrete run. -/
theorem recorded_streams_spec_witness :
    ∃ j2, _fetch_job (runClaimedJob [] [jobA] "a" ⟨0, "hello", "boom"⟩ true) "a" =
        some j2 ∧
      j2.stdout = some (streamHeader [] jobA ++ "hello") ∧
      j2.stderr = some (if (0 : Int) == 0 then streamHeader [] jobA
        else streamHeader [] jobA ++ applyFailMsg 0) :=
  (recorded_streams_spec [] [jobA] "a" jobA ⟨0, "hello", "boom"⟩ true
    (by decide)).1

/-- C6 counterexample: a run whose apply subprocess emitted "boom" on its
captured stderr stores a job stderr in which "boom" never occurs, so the
captured apply stderr stream does not become part of the job's stderr
field. -/
theorem apply_stderr_discarded_cex :
    (⟨0, "", "boom"⟩ : ApplyResult).stderr = "boom" ∧
    ¬ strContains
      (((_fetch_job (runClaimedJob [] [jobA] "a" ⟨0, "", "boom"⟩ true) "a").bind
          Job.stderr).getD "") "boom" := by
  refine ⟨rfl, ?_⟩
  intro hc
  have hb := strContains_charsSub _ _ hc
  exact absurd hb (by decide)

end NfRest
